/-
Verification of the audio preprocessing pipeline (services/audio_processor.py
and the should-enhance rule in services/transcription_service.py).

Modelling conventions:
- Sample buffers are `List ℚ` (exact rational arithmetic in place of IEEE
  doubles; the claims under study are order/sign/bound properties that do not
  hinge on rounding).
- Library calls whose numeric output is irrational or external (np.sqrt for
  RMS, librosa spectral centroid, librosa MFCC statistics) are passed in as
  parameters; theorems hypothesise only their mathematically guaranteed
  properties (e.g. a square root is nonnegative).
- numpy quietly produces NaN where a mean or a division sees no data (np.mean
  of an empty slice, division by a zero length): no exception is raised, and
  Python's min(x, 1.0) hands a NaN first argument straight through.  Values
  that can be NaN are therefore `Option ℚ` with `none` for NaN; the quality
  analyzer's metrics propagate it exactly as the float expressions do.
-/
import Mathlib

namespace AudioProc

/-- np.mean over ℚ.  The mean of an empty slice is NaN — numpy emits only a
RuntimeWarning, no exception — modelled as `none`. -/
def listMean (xs : List ℚ) : Option ℚ :=
  if xs.length = 0 then none else some (xs.sum / (xs.length : ℚ))

/-- Python min(x, 1.0) where x may be NaN (`none`): every comparison against
NaN is false, so min returns its first argument when that one is NaN. -/
def pyMinOne (x : Option ℚ) : Option ℚ := x.map fun q => min q 1

/-- Insert into a sorted list (helper for the ascending sort below). -/
def insertSorted (x : ℚ) : List ℚ → List ℚ
  | [] => [x]
  | y :: t => if x ≤ y then x :: y :: t else y :: insertSorted x t

/-- Ascending insertion sort, modelling np.sort. -/
def sortAsc (l : List ℚ) : List ℚ := l.foldr insertSorted []

/-- AudioQualityAnalyzer._estimate_noise_level: sort magnitudes ascending,
average the lowest 10% (int(len * 0.1) indices), scale by 10, clip to 1.
For a buffer of 1-9 samples the index is 0, the averaged slice is empty and
the whole expression is NaN (`none`): min(nan * 10, 1.0) stays NaN. -/
def estimate_noise_level (xs : List ℚ) : Option ℚ :=
  let sorted := sortAsc (xs.map fun x => |x|)
  let noise_floor_index := sorted.length / 10
  pyMinOne ((listMean (sorted.take noise_floor_index)).map fun m => m * 10)

/-- Number of sign-bit changes between adjacent samples
(np.sum(np.diff(np.signbit(audio_data))); np.diff on booleans is xor). -/
def signChanges : List ℚ → ℕ
  | [] => 0
  | [_] => 0
  | a :: b :: t => (if (a < 0) ≠ (b < 0) then 1 else 0) + signChanges (b :: t)

/-- Zero-crossing rate: sign changes divided by buffer length; 0/0 on the
empty buffer is numpy NaN (warning only), modelled as `none`. -/
def zcrOf (xs : List ℚ) : Option ℚ :=
  if xs.length = 0 then none else some ((signChanges xs : ℚ) / (xs.length : ℚ))

/-- AudioQualityAnalyzer._estimate_speech_probability: three boolean
heuristics over MFCC statistics, averaged; 1/2 if the MFCC computation
raised.  The MFCC statistics (mean of coefficient 1, its deviation, mean of
coefficients 2..4) come from librosa and are parameters here. -/
def estimate_speech_probability (mfccOk : Bool) (mfccMean1 mfccStd1 midMean : ℚ) : ℚ :=
  if mfccOk then
    ((if mfccMean1 > -20 then (1 : ℚ) else 0) +
     (if mfccStd1 > 2 then (1 : ℚ) else 0) +
     (if midMean > -15 then (1 : ℚ) else 0)) / 3
  else 1 / 2

/-- AudioQualityAnalyzer._calculate_quality_score: weighted sum of clipped
sub-scores, clipped to at most 1.  Weights 0.3, 0.2, 0.2, 0.2, 0.1 written as
exact fractions.  A NaN among rms, zcr, centroid or noise taints every
float operation it touches (min included) and hence the whole sum, exactly
as the Option bind propagates `none`; the final min(quality, 1.0) keeps a
NaN first argument. -/
def calculate_quality_score (rms_energy zcr spectral_centroid noise_level : Option ℚ)
    (speech_prob : ℚ) : Option ℚ :=
  pyMinOne (do
    let r ← rms_energy
    let z ← zcr
    let c ← spectral_centroid
    let n ← noise_level
    pure (min (r * 10) 1 * (3 / 10) + min (z * 1000) 1 * (2 / 10) +
      min (c / 4000) 1 * (2 / 10) + (1 - n) * (2 / 10) + speech_prob * (1 / 10)))

/-- The metrics record returned by AudioQualityAnalyzer.analyze_quality.
Fields that can hold a NaN float are `Option ℚ`. -/
structure QualityMetrics where
  rms_energy : Option ℚ
  zero_crossing_rate : Option ℚ
  spectral_centroid : Option ℚ
  noise_level : Option ℚ
  speech_probability : ℚ
  quality_score : Option ℚ
deriving DecidableEq

/-- AudioQualityAnalyzer.analyze_quality (success path).  `rms` stands for
np.sqrt(np.mean(audio**2)) and `centroid` for the librosa spectral-centroid
mean; both are library outputs passed as parameters (see the header); the
sample rate is only forwarded to librosa and does not enter the arithmetic. -/
def analyze_quality (xs : List ℚ) (_sr : ℕ) (rms centroid : Option ℚ)
    (mfccOk : Bool) (mfccMean1 mfccStd1 midMean : ℚ) : QualityMetrics :=
  let noise := estimate_noise_level xs
  let speech := estimate_speech_probability mfccOk mfccMean1 mfccStd1 midMean
  { rms_energy := rms
    zero_crossing_rate := zcrOf xs
    spectral_centroid := centroid
    noise_level := noise
    speech_probability := speech
    quality_score := calculate_quality_score rms (zcrOf xs) centroid noise speech }

/-- AudioQualityAnalyzer.analyze_quality exception branch: the all-neutral
record with noise_level 1. -/
def analyze_quality_on_error : QualityMetrics :=
  { rms_energy := some 0, zero_crossing_rate := some 0, spectral_centroid := some 0,
    noise_level := some 1, speech_probability := 0, quality_score := some 0 }

/-- Membership in the closed unit interval. -/
def inUnit (x : ℚ) : Prop := 0 ≤ x ∧ x ≤ 1

/-- A possibly-NaN value that is an actual number in the closed unit
interval; NaN (`none`) never qualifies. -/
def inUnitO (x : Option ℚ) : Prop := ∃ q, x = some q ∧ 0 ≤ q ∧ q ≤ 1

/-- should_enhance decision from TranscriptionService (thresholds 0.6, 0.3,
300 written as exact fractions). -/
def should_enhance (quality_score noise_level duration_seconds : ℚ) : Bool :=
  decide (quality_score < 3 / 5) || decide (noise_level > 3 / 10) ||
    decide (duration_seconds > 300)

/-- The largest absolute sample value, np.max(np.abs(audio_data)); 0 for an
empty buffer. -/
def maxAbs (xs : List ℚ) : ℚ := (xs.map fun x => |x|).foldr max 0

/-- AudioEnhancer._normalize_volume.  `rms` stands for the computed
np.sqrt(np.mean(audio**2)); theorems characterise it by
rms ≥ 0 and rms * rms * len = sum of squares.  Target RMS 0.1 written 1/10. -/
def normalize_volume (rms : ℚ) (xs : List ℚ) : List ℚ :=
  if 0 < rms then
    let scaling_factor := min (1 / 10 / rms) (1 / maxAbs xs)
    xs.map fun x => x * scaling_factor
  else xs

/-- The five enhancement transforms.  Their numeric bodies live in librosa /
noisereduce (external libraries), so they are oracles here; `none` models the
transform raising an exception. -/
structure Stages where
  normalize : List ℚ → Option (List ℚ)
  denoise : List ℚ → Option (List ℚ)
  resample : List ℚ → Option (List ℚ)
  toMono : List ℚ → Option (List ℚ)
  highpass : List ℚ → Option (List ℚ)

/-- All five transforms succeed and leave the buffer unchanged. -/
def idStages : Stages :=
  { normalize := fun a => some a, denoise := fun a => some a,
    resample := fun a => some a, toMono := fun a => some a,
    highpass := fun a => some a }

/-- The body of the single try block of AudioEnhancer.enhance_audio: the five
steps in order.  Noise reduction (_reduce_noise) and the high-pass filter
(_apply_highpass_filter) carry their own inner try/except returning the input
buffer on failure, hence `getD`; a failure anywhere else propagates to the
outer handler (`none`).  Resampling runs only when the rate differs from
16000; mono conversion only when the buffer is multi-channel.  The returned
list of names mirrors the keys inserted into the enhancements dict (their
numeric magnitudes are not at issue in any claim). -/
def enhance_steps (st : Stages) (sample_rate channels : ℕ) (audio : List ℚ) :
    Option (List ℚ × List String) := do
  let a1 ← st.normalize audio
  let e1 := ["volume_normalization"]
  let a2 := (st.denoise a1).getD a1
  let e2 := e1 ++ ["noise_reduction"]
  let (a3, e3) ←
    if sample_rate ≠ 16000 then do
      let a ← st.resample a2
      pure (a, e2 ++ ["resampling"])
    else pure (a2, e2)
  let (a4, e4) ←
    if channels > 1 then do
      let a ← st.toMono a3
      pure (a, e3 ++ ["mono_conversion"])
    else pure (a3, e3)
  let a5 := (st.highpass a4).getD a4
  pure (a5, e4 ++ ["highpass_filter"])

/-- AudioEnhancer.enhance_audio: run the steps inside one try block; the
except handler returns the original input buffer with an empty map. -/
def enhance_audio (st : Stages) (sample_rate channels : ℕ) (audio : List ℚ) :
    List ℚ × List String :=
  match enhance_steps st sample_rate channels audio with
  | some r => r
  | none => (audio, [])

/-- The buffer the spec text describes: every one of the five stages
independently fallible, a failing stage skipped with the pre-stage buffer
kept.  Written from the spec sentence, to be compared with `enhance_audio`
(which is translated from the code). -/
def enhance_audio_spec (st : Stages) (sample_rate channels : ℕ) (audio : List ℚ) : List ℚ :=
  let a1 := (st.normalize audio).getD audio
  let a2 := (st.denoise a1).getD a1
  let a3 := if sample_rate ≠ 16000 then (st.resample a2).getD a2 else a2
  let a4 := if channels > 1 then (st.toMono a3).getD a3 else a3
  (st.highpass a4).getD a4

/-! ### Lemmas about the quality metrics -/

lemma mem_insertSorted {y x : ℚ} : ∀ {l : List ℚ}, y ∈ insertSorted x l → y = x ∨ y ∈ l := by
  intro l
  induction l with
  | nil => intro h; simp [insertSorted] at h; exact Or.inl h
  | cons a t ih =>
      intro h
      by_cases hxa : x ≤ a
      · simp only [insertSorted, if_pos hxa] at h
        exact List.mem_cons.mp h
      · simp only [insertSorted, if_neg hxa, List.mem_cons] at h
        rcases h with h | h
        · exact Or.inr (by simp [h])
        · rcases ih h with h' | h'
          · exact Or.inl h'
          · exact Or.inr (by simp [h'])

lemma mem_sortAsc {y : ℚ} : ∀ {l : List ℚ}, y ∈ sortAsc l → y ∈ l := by
  intro l
  induction l with
  | nil => intro h; simp [sortAsc] at h
  | cons a t ih =>
      intro h
      simp only [sortAsc, List.foldr] at h
      rcases mem_insertSorted h with h' | h'
      · simp [h']
      · exact List.mem_cons_of_mem _ (ih h')

lemma length_insertSorted (x : ℚ) : ∀ (l : List ℚ), (insertSorted x l).length = l.length + 1 := by
  intro l
  induction l with
  | nil => rfl
  | cons a t ih =>
      by_cases hxa : x ≤ a
      · simp [insertSorted, if_pos hxa]
      · simp [insertSorted, if_neg hxa, ih]

lemma length_sortAsc (l : List ℚ) : (sortAsc l).length = l.length := by
  induction l with
  | nil => rfl
  | cons a t ih =>
      simp only [sortAsc, List.foldr] at ih ⊢
      rw [length_insertSorted, ih, List.length_cons]

lemma listMean_some_nonneg {l : List ℚ} (h : ∀ y ∈ l, 0 ≤ y) {q : ℚ}
    (hq : listMean l = some q) : 0 ≤ q := by
  unfold listMean at hq
  by_cases h0 : l.length = 0
  · rw [if_pos h0] at hq
    cases hq
  · rw [if_neg h0] at hq
    obtain rfl : l.sum / (l.length : ℚ) = q := Option.some.inj hq
    exact div_nonneg (List.sum_nonneg h) (by positivity)

/-- For a buffer of at least 10 samples the noise floor index is at least 1,
the averaged slice is nonempty, and the noise level is a number in [0,1]. -/
lemma estimate_noise_level_mem_unit {xs : List ℚ} (h10 : 10 ≤ xs.length) :
    inUnitO (estimate_noise_level xs) := by
  simp only [estimate_noise_level]
  have hlen : (sortAsc (xs.map fun x => |x|)).length = xs.length := by
    rw [length_sortAsc, List.length_map]
  have htake : ((sortAsc (xs.map fun x => |x|)).take
      ((sortAsc (xs.map fun x => |x|)).length / 10)).length ≠ 0 := by
    rw [List.length_take, hlen]
    omega
  rcases hm : listMean ((sortAsc (xs.map fun x => |x|)).take
      ((sortAsc (xs.map fun x => |x|)).length / 10)) with _ | m
  · rw [listMean, if_neg htake] at hm
    cases hm
  · have hm0 : 0 ≤ m := by
      refine listMean_some_nonneg ?_ hm
      intro y hy
      have hy' := mem_sortAsc (List.mem_of_mem_take hy)
      rcases List.mem_map.mp hy' with ⟨x, _, rfl⟩
      exact abs_nonneg x
    exact ⟨min (m * 10) 1, rfl, le_min (by positivity) zero_le_one, min_le_right _ _⟩

lemma estimate_speech_probability_mem_unit (ok : Bool) (a b c : ℚ) :
    inUnit (estimate_speech_probability ok a b c) := by
  unfold estimate_speech_probability inUnit
  split_ifs <;> norm_num

lemma zcrOf_some_nonneg {xs : List ℚ} (h : xs.length ≠ 0) :
    ∃ z, zcrOf xs = some z ∧ 0 ≤ z := by
  refine ⟨(signChanges xs : ℚ) / (xs.length : ℚ), ?_, by positivity⟩
  rw [zcrOf, if_neg h]

lemma calculate_quality_score_mem_unit {r z c n s : ℚ}
    (hr : 0 ≤ r) (hz : 0 ≤ z) (hc : 0 ≤ c) (hn : 0 ≤ n) (hn1 : n ≤ 1) (hs : 0 ≤ s) :
    inUnitO (calculate_quality_score (some r) (some z) (some c) (some n) s) := by
  refine ⟨min (min (r * 10) 1 * (3 / 10) + min (z * 1000) 1 * (2 / 10) +
      min (c / 4000) 1 * (2 / 10) + (1 - n) * (2 / 10) + s * (1 / 10)) 1, rfl, ?_, min_le_right _ _⟩
  refine le_min ?_ zero_le_one
  have h1 : (0 : ℚ) ≤ min (r * 10) 1 := le_min (by positivity) zero_le_one
  have h2 : (0 : ℚ) ≤ min (z * 1000) 1 := le_min (by positivity) zero_le_one
  have h3 : (0 : ℚ) ≤ min (c / 4000) 1 := le_min (by positivity) zero_le_one
  have h4 : (0 : ℚ) ≤ 1 - n := by linarith
  positivity

/-! ### Heap model for the crossfade concatenation

`result = chunks[0]` aliases the caller's first array, and the two
slice-assignments `result[-o:] *= fade_out` and `result[-o:] += ...` mutate
that array in place before `np.concatenate` allocates a fresh one, so the
concatenation is modelled over an explicit heap of arrays: references are
indices into the heap, allocation appends. -/

structure Heap where
  arrays : List (List ℚ)
deriving DecidableEq

def Heap.read (h : Heap) (r : ℕ) : List ℚ := h.arrays.getD r []

def Heap.write (h : Heap) (r : ℕ) (a : List ℚ) : Heap := ⟨h.arrays.set r a⟩

def Heap.alloc (h : Heap) (a : List ℚ) : Heap × ℕ := (⟨h.arrays ++ [a]⟩, h.arrays.length)

/-- np.linspace over ℚ: n equally spaced values from a to b inclusive; a lone
value is the start point. -/
def linspace (a b : ℚ) (n : ℕ) : List ℚ :=
  if n = 1 then [a]
  else (List.range n).map fun (i : ℕ) => a + (b - a) * (i : ℚ) / ((n : ℚ) - 1)

/-- 1-D numpy elementwise product with broadcasting: equal lengths zip, a
length-one operand broadcasts, anything else raises (none). -/
def broadcastMul (xs ys : List ℚ) : Option (List ℚ) :=
  if xs.length = ys.length then some (xs.zipWith (· * ·) ys)
  else if xs.length = 1 then some (ys.map fun y => xs.headD 0 * y)
  else if ys.length = 1 then some (xs.map fun x => x * ys.headD 0)
  else none

/-- In-place `target += value` on a slice: the value must broadcast to the
target's shape (equal length, or a length-one value), else ValueError. -/
def inplaceAdd (xs ys : List ℚ) : Option (List ℚ) :=
  if ys.length = xs.length then some (xs.zipWith (· + ·) ys)
  else if ys.length = 1 then some (xs.map fun x => x + ys.headD 0)
  else none

/-- `result[-o:] *= ramp` with ramp of length o (shapes always match). -/
def mulTail (res : List ℚ) (o : ℕ) (ramp : List ℚ) : List ℚ :=
  res.take (res.length - o) ++ (res.drop (res.length - o)).zipWith (· * ·) ramp

/-- The for-loop of _concatenate_with_crossfade over chunks[1:].  `r` is the
reference currently bound to the Python variable `result`; a `none` first
component models the loop raising (numpy broadcast failure), with the heap
retaining every write already performed. -/
def crossfadeLoop (o : ℕ) : List ℕ → ℕ → Heap → Option ℕ × Heap
  | [], r, h => (some r, h)
  | c :: rest, r, h =>
    let res := h.read r
    let ch := h.read c
    if 0 < o ∧ o ≤ res.length then
      let res1 := mulTail res o (linspace 1 0 o)
      let h1 := h.write r res1
      match broadcastMul (ch.take o) (linspace 0 1 o) with
      | none => (none, h1)
      | some fadedHead =>
        match inplaceAdd (res1.drop (res1.length - o)) fadedHead with
        | none => (none, h1)
        | some newTail =>
          let res2 := res1.take (res1.length - o) ++ newTail
          let h2 := h1.write r res2
          let ha := h2.alloc (res2 ++ ch.drop o)
          crossfadeLoop o rest ha.2 ha.1
    else
      let ha := h.alloc (res ++ ch)
      crossfadeLoop o rest ha.2 ha.1

/-- ChunkedAudioProcessor._concatenate_with_crossfade over the heap: an empty
chunk list allocates np.array([]); a single chunk is returned as-is (the very
same reference, no copy); otherwise the loop starts from chunks[0]. -/
def concatenate_with_crossfade (h : Heap) (chunks : List ℕ) (overlap_samples : ℕ) :
    Option ℕ × Heap :=
  match chunks with
  | [] => let (h1, r) := h.alloc []; (some r, h1)
  | [c] => (some c, h)
  | c :: rest => crossfadeLoop overlap_samples rest c h

/-- Run the concatenation on a fresh heap holding the given chunk values. -/
def runCrossfade (chunks : List (List ℚ)) (overlap_samples : ℕ) : Option ℕ × Heap :=
  concatenate_with_crossfade ⟨chunks⟩ (List.range chunks.length) overlap_samples

/-- Value-level result of the concatenation (none when the call raises). -/
def runCrossfadeValue (chunks : List (List ℚ)) (overlap_samples : ℕ) : Option (List ℚ) :=
  ((runCrossfade chunks overlap_samples).1).map fun r =>
    ((runCrossfade chunks overlap_samples).2).read r

/-- The crossfaded overlap region the spec and claim C10 describe: the tail of
the first chunk multiplied by the fade-out ramp plus the head of the second
chunk multiplied by the fade-in ramp, in place of the first chunk's tail. -/
def crossfadeFirst (c0 c1 : List ℚ) (o : ℕ) : List ℚ :=
  c0.take (c0.length - o) ++
    ((c0.drop (c0.length - o)).zipWith (· * ·) (linspace 1 0 o)).zipWith (· + ·)
      ((c1.take o).zipWith (· * ·) (linspace 0 1 o))

/-! ### Chunked processor and orchestrator -/

/-- An audio file as the subsystem sees it: the mono sample view returned by
librosa.load, the native sample rate and channel count reported by sf.info,
and the container format string.  sf.info's duration is frames / samplerate. -/
structure AudioFile where
  samples : List ℚ
  sample_rate : ℕ
  channels : ℕ
  format : String
deriving DecidableEq

/-- AudioMetadata as built by the processing paths (bitrate, file size and the
quality scores are not touched by the claims under study and are elided). -/
structure AudioMetadata where
  duration_seconds : ℚ
  sample_rate : ℕ
  channels : ℕ
  format : String
deriving DecidableEq

/-- The processed-file reference of an AudioProcessingResult: either the
original path handed back unchanged, or a freshly written temp file with the
given samples and the rate passed to sf.write. -/
inductive FileRef
  | original
  | temp (data : List ℚ) (sample_rate : ℕ)
deriving DecidableEq

/-- AudioProcessingResult (error_message, processing time and the
quality_improvements magnitudes elided; `quality_improvements` key names are
carried inside the enhancement paths where needed). -/
structure AudioProcessingResult where
  success : Bool
  processed_file : Option FileRef
  metadata : Option AudioMetadata
  chunks_processed : ℕ
deriving DecidableEq

/-- Ceiling division on naturals, int(np.ceil(a / b)) for b > 0. -/
def ceilDiv (a b : ℕ) : ℕ := (a + b - 1) / b

/-- chunk_samples = int(chunk_duration * sr) with chunk_duration = 30.0. -/
def chunkSamplesOf (sr : ℕ) : ℕ := 30 * sr

/-- overlap_samples = int(overlap_duration * sr) with overlap_duration = 2.0. -/
def overlapSamplesOf (sr : ℕ) : ℕ := 2 * sr

/-- num_chunks = max(1, ceil(total_samples / chunk_samples)); total_samples =
int(duration * sr) recovers the frame count exactly. -/
def numChunksOf (f : AudioFile) : ℕ :=
  max 1 (ceilDiv f.samples.length (chunkSamplesOf f.sample_rate))

/-- The librosa.load window for chunk i: chunks after the first start
overlap_samples early and read chunk_duration + overlap_duration seconds. -/
def chunkData (f : AudioFile) (i : ℕ) : List ℚ :=
  let cs := chunkSamplesOf f.sample_rate
  let os := overlapSamplesOf f.sample_rate
  let start := if i = 0 then 0 else i * cs - os
  let dur := if i = 0 then cs else cs + os
  (f.samples.drop start).take dur

/-- ChunkedAudioProcessor.process_large_file: read the file info, enhance
each of the num_chunks windows (librosa.load returns mono data, so the
enhancer sees one channel), stitch with crossfade, and either return the
success record — whose metadata carries the ORIGINAL sample rate — or, if
anything raised, the failure record with no processed file. -/
def process_large_file (st : Stages) (f : AudioFile) : AudioProcessingResult :=
  let os := overlapSamplesOf f.sample_rate
  let n := numChunksOf f
  let processed_chunks :=
    (List.range n).map fun i => (enhance_audio st f.sample_rate 1 (chunkData f i)).1
  match runCrossfadeValue processed_chunks os with
  | some final_audio =>
    { success := true
      processed_file := some (.temp final_audio f.sample_rate)
      metadata := some { duration_seconds := (final_audio.length : ℚ) / (f.sample_rate : ℚ)
                         sample_rate := f.sample_rate
                         channels := 1
                         format := "wav" }
      chunks_processed := n }
  | none =>
    { success := false, processed_file := none, metadata := none, chunks_processed := 0 }

/-- OptimizedAudioProcessor.analyze_audio_file, success path: sf.info fields
plus the quality metrics (the latter elided, see AudioMetadata). -/
def analyze_audio_file (f : AudioFile) : AudioMetadata :=
  { duration_seconds := (f.samples.length : ℚ) / (f.sample_rate : ℚ)
    sample_rate := f.sample_rate
    channels := f.channels
    format := f.format }

/-- The enhance-directly branch of _process_audio_sync: librosa.load (mono),
enhance, write the result at the enhancer's target rate 16000 and report
16000 Hz / 1 channel metadata. -/
def enhance_and_save (st : Stages) (f : AudioFile) : AudioProcessingResult :=
  let enhanced := (enhance_audio st f.sample_rate 1 f.samples).1
  { success := true
    processed_file := some (.temp enhanced 16000)
    metadata := some { duration_seconds := (enhanced.length : ℚ) / (16000 : ℚ)
                       sample_rate := 16000
                       channels := 1
                       format := "wav" }
    chunks_processed := 0 }

/-- The options dict {enhance_quality, chunk_large_files}. -/
structure ProcessOptions where
  enhance_quality : Bool
  chunk_large_files : Bool
deriving DecidableEq

/-- OptimizedAudioProcessor._process_audio_sync: analyze, then route — the
chunked processor when chunk_large_files is set and the analyzed duration
exceeds 60 s, else the direct enhancer when enhance_quality is set (the audio
libraries are taken as installed), else a pass-through returning the original
file reference with success and no transformation. -/
def process_audio_sync (st : Stages) (f : AudioFile) (options : ProcessOptions) :
    AudioProcessingResult :=
  let metadata := analyze_audio_file f
  if options.chunk_large_files = true ∧ 60 < metadata.duration_seconds then
    process_large_file st f
  else if options.enhance_quality = true then
    enhance_and_save st f
  else
    { success := true
      processed_file := some .original
      metadata := some metadata
      chunks_processed := 0 }

/-! ### Supporting lemmas for volume normalization -/

lemma foldr_max_nonneg (l : List ℚ) : 0 ≤ l.foldr max 0 := by
  induction l with
  | nil => exact le_refl 0
  | cons a t ih => exact le_trans ih (le_max_right a _)

lemma maxAbs_nonneg (xs : List ℚ) : 0 ≤ maxAbs xs := foldr_max_nonneg _

lemma abs_le_maxAbs {x : ℚ} : ∀ {xs : List ℚ}, x ∈ xs → |x| ≤ maxAbs xs := by
  intro xs
  induction xs with
  | nil => intro h; simp at h
  | cons a t ih =>
      intro h
      rcases List.mem_cons.mp h with h' | h'
      · subst h'; exact le_max_left _ _
      · exact le_trans (ih h') (le_max_right _ _)

/-! ### Claim theorems -/

/-- Claim C1 counterexample: for a non-empty buffer of fewer than 10 samples
(here 5 zero samples, which also makes the RMS and centroid the number 0),
int(len * 0.1) = 0 averages an empty slice: numpy returns NaN with only a
warning, Python's min(nan * 10, 1.0) and min(nan, 1.0) keep it, so
analyze_quality returns noise_level and quality_score = NaN — not in [0,1],
refuting the claim as stated for every finite buffer. -/
theorem short_buffer_metrics_nan :
    (analyze_quality (List.replicate 5 0) 16000 (some 0) (some 0) true 0 0 0).noise_level = none ∧
    (analyze_quality (List.replicate 5 0) 16000 (some 0) (some 0) true 0 0 0).quality_score = none ∧
    ¬ inUnitO (analyze_quality (List.replicate 5 0) 16000 (some 0) (some 0) true 0 0 0).noise_level ∧
    ¬ inUnitO (analyze_quality (List.replicate 5 0) 16000 (some 0) (some 0) true 0 0 0).quality_score := by
  have hnoise : estimate_noise_level (List.replicate 5 (0 : ℚ)) = none := by
    simp only [estimate_noise_level]
    have hlen : (sortAsc ((List.replicate 5 (0 : ℚ)).map fun x => |x|)).length = 5 := by
      rw [length_sortAsc, List.length_map, List.length_replicate]
    rw [hlen]
    norm_num [listMean, pyMinOne]
  have hq : calculate_quality_score (some 0) (zcrOf (List.replicate 5 (0 : ℚ))) (some 0)
      (estimate_noise_level (List.replicate 5 (0 : ℚ)))
      (estimate_speech_probability true 0 0 0) = none := by
    rw [hnoise]
    rcases hz : zcrOf (List.replicate 5 (0 : ℚ)) with _ | z <;>
      simp [calculate_quality_score, pyMinOne, bind, Option.bind]
  refine ⟨hnoise, hq, ?_, ?_⟩
  · intro hmem
    rcases hmem with ⟨q, hsome, -⟩
    rw [show (analyze_quality (List.replicate 5 0) 16000 (some 0) (some 0) true 0 0 0).noise_level =
      estimate_noise_level (List.replicate 5 (0 : ℚ)) from rfl, hnoise] at hsome
    cases hsome
  · intro hmem
    rcases hmem with ⟨q, hsome, -⟩
    rw [show (analyze_quality (List.replicate 5 0) 16000 (some 0) (some 0) true 0 0 0).quality_score =
      calculate_quality_score (some 0) (zcrOf (List.replicate 5 (0 : ℚ))) (some 0)
        (estimate_noise_level (List.replicate 5 (0 : ℚ)))
        (estimate_speech_probability true 0 0 0) from rfl, hq] at hsome
    cases hsome

/-- Claim C1 amended: speech_probability always lies in [0,1], and for every
buffer of at least 10 samples — so the noise-floor slice is nonempty and no
NaN arises — noise_level and quality_score are numbers in [0,1] too (for the
score, given the library-computed RMS and spectral centroid are nonnegative
numbers, which they are for such buffers); a buffer of fewer than 10 samples
instead yields NaN noise_level and quality_score (see the counterexample).
The exception-branch record obeys the [0,1] bounds as well. -/
theorem analyze_quality_metrics_in_unit_interval :
    ∀ (xs : List ℚ) (sr : ℕ) (rms centroid : Option ℚ) (mfccMean1 mfccStd1 midMean : ℚ)
      (mfccOk : Bool),
      inUnit (analyze_quality xs sr rms centroid mfccOk mfccMean1 mfccStd1 midMean).speech_probability ∧
      (10 ≤ xs.length →
        inUnitO (analyze_quality xs sr rms centroid mfccOk mfccMean1 mfccStd1 midMean).noise_level) ∧
      (10 ≤ xs.length → ∀ r c, rms = some r → 0 ≤ r → centroid = some c → 0 ≤ c →
        inUnitO (analyze_quality xs sr rms centroid mfccOk mfccMean1 mfccStd1 midMean).quality_score) ∧
      (inUnitO analyze_quality_on_error.quality_score ∧
       inUnitO analyze_quality_on_error.noise_level ∧
       inUnit analyze_quality_on_error.speech_probability) := by
  intro xs sr rms centroid m1 s1 mm ok
  refine ⟨estimate_speech_probability_mem_unit ok m1 s1 mm, ?_, ?_, ?_⟩
  · intro h10
    exact estimate_noise_level_mem_unit h10
  · intro h10 r c hrsome hr hcsome hc
    obtain ⟨z, hz, hz0⟩ := @zcrOf_some_nonneg xs (by omega)
    obtain ⟨n, hn, hn0, hn1⟩ := estimate_noise_level_mem_unit h10
    have hgoal : (analyze_quality xs sr rms centroid ok m1 s1 mm).quality_score =
        calculate_quality_score (some r) (some z) (some c) (some n)
          (estimate_speech_probability ok m1 s1 mm) := by
      show calculate_quality_score rms (zcrOf xs) centroid (estimate_noise_level xs)
        (estimate_speech_probability ok m1 s1 mm) = _
      rw [hrsome, hcsome, hz, hn]
    rw [hgoal]
    exact calculate_quality_score_mem_unit hr hz0 hc hn0 hn1
      (estimate_speech_probability_mem_unit ok m1 s1 mm).1
  · exact ⟨⟨0, rfl, by norm_num⟩, ⟨1, rfl, by norm_num⟩,
      by norm_num [inUnit, analyze_quality_on_error]⟩

/-- Witness for the C1 amended theorem at a 10-sample buffer and concrete
library outputs. -/
theorem analyze_quality_metrics_in_unit_interval_witness :
    inUnitO (analyze_quality (List.replicate 10 1) 16000 (some (1/2)) (some 100)
      true 0 0 0).noise_level ∧
    inUnitO (analyze_quality (List.replicate 10 1) 16000 (some (1/2)) (some 100)
      true 0 0 0).quality_score :=
  ⟨(analyze_quality_metrics_in_unit_interval (List.replicate 10 1) 16000 (some (1/2))
      (some 100) 0 0 0 true).2.1 (by simp),
   (analyze_quality_metrics_in_unit_interval (List.replicate 10 1) 16000 (some (1/2))
      (some 100) 0 0 0 true).2.2.1 (by simp) (1/2) 100 rfl (by norm_num) rfl (by norm_num)⟩

/-- Claim C6: the should-enhance decision is exactly
quality_score < 0.6 or noise_level > 0.3 or duration > 300, and on the two
instances from the spec (0.5, 0.1, 10) it is true and (0.9, 0.1, 10) false. -/
theorem should_enhance_rule :
    (∀ q n d : ℚ, should_enhance q n d = true ↔ (q < 3/5 ∨ 3/10 < n ∨ 300 < d)) ∧
    should_enhance (1/2) (1/10) 10 = true ∧
    should_enhance (9/10) (1/10) 10 = false := by
  refine ⟨fun q n d => ?_, by norm_num [should_enhance], by norm_num [should_enhance]⟩
  simp [should_enhance, or_assoc]

/-- Claim C9: stitching a single chunk bypasses crossfading entirely: at the
heap level the very same reference comes back with the heap untouched, and at
the value level the chunk is returned unmodified for every overlap value. -/
theorem crossfade_single_chunk_identity :
    (∀ (h : Heap) (r o : ℕ), concatenate_with_crossfade h [r] o = (some r, h)) ∧
    (∀ (c : List ℚ) (o : ℕ), runCrossfadeValue [c] o = some c) := by
  constructor
  · intro h r o; rfl
  · intro c o; rfl

/-- Claim C8: for a non-silent buffer (RMS > 0, with the RMS pinned to the
buffer by rms² · len = Σ x²), every sample the volume-normalization stage
returns has absolute value at most 1. -/
theorem normalize_volume_no_clipping :
    ∀ (xs : List ℚ) (rms : ℚ), 0 ≤ rms →
      rms * rms * (xs.length : ℚ) = (xs.map fun x => x * x).sum →
      0 < rms → ∀ y ∈ normalize_volume rms xs, |y| ≤ 1 := by
  intro xs rms h0 hchar hpos y hy
  unfold normalize_volume at hy
  rw [if_pos hpos] at hy
  rcases List.mem_map.mp hy with ⟨x, hx, rfl⟩
  set s := min (1 / 10 / rms) (1 / maxAbs xs) with hsdef
  have hM0 : 0 ≤ maxAbs xs := maxAbs_nonneg xs
  have hs0 : 0 ≤ s := le_min (by positivity) (by positivity)
  by_cases hM : maxAbs xs = 0
  · have hxM : |x| ≤ 0 := hM ▸ abs_le_maxAbs hx
    have hx0 : x = 0 := abs_eq_zero.mp (le_antisymm hxM (abs_nonneg x))
    simp [hx0]
  · have hMpos : 0 < maxAbs xs := lt_of_le_of_ne hM0 (Ne.symm hM)
    have hxM : |x| ≤ maxAbs xs := abs_le_maxAbs hx
    have hs : s ≤ 1 / maxAbs xs := min_le_right _ _
    calc |x * s| = |x| * |s| := abs_mul x s
      _ = |x| * s := by rw [abs_of_nonneg hs0]
      _ ≤ maxAbs xs * (1 / maxAbs xs) := mul_le_mul hxM hs hs0 hM0
      _ = 1 := by field_simp

/-- Witness for C8: the buffer [2] has RMS 2; its normalized sample is 1/10. -/
theorem normalize_volume_no_clipping_witness : |(1 : ℚ) / 10| ≤ 1 :=
  normalize_volume_no_clipping [2] 2 (by norm_num)
    (by norm_num) (by norm_num) (1 / 10) (by norm_num [normalize_volume, maxAbs])

/-! ### Heap and crossfade lemmas -/

lemma Heap.read_write_ne (h : Heap) (r : ℕ) (a : List ℚ) {i : ℕ} (hne : i ≠ r) :
    (h.write r a).read i = h.read i := by
  unfold Heap.write Heap.read
  simp [List.getD_eq_getElem?_getD, List.getElem?_set_ne (Ne.symm hne)]

lemma Heap.read_write_self (h : Heap) (r : ℕ) (a : List ℚ) (hr : r < h.arrays.length) :
    (h.write r a).read r = a := by
  unfold Heap.write Heap.read
  simp [List.getD_eq_getElem?_getD, List.getElem?_set_eq_of_lt a hr]

lemma Heap.read_alloc_lt (h : Heap) (a : List ℚ) {i : ℕ} (hi : i < h.arrays.length) :
    ((h.alloc a).1).read i = h.read i := by
  unfold Heap.alloc Heap.read
  simp [List.getD_eq_getElem?_getD, List.getElem?_append_left hi]

lemma Heap.read_alloc_self (h : Heap) (a : List ℚ) : ((h.alloc a).1).read ((h.alloc a).2) = a := by
  unfold Heap.alloc Heap.read
  simp [List.getD_eq_getElem?_getD, List.getElem?_concat_length]

lemma Heap.length_write (h : Heap) (r : ℕ) (a : List ℚ) :
    (h.write r a).arrays.length = h.arrays.length := by
  unfold Heap.write; simp

lemma Heap.length_alloc (h : Heap) (a : List ℚ) :
    ((h.alloc a).1).arrays.length = h.arrays.length + 1 := by
  unfold Heap.alloc; simp

lemma length_linspace (a b : ℚ) (n : ℕ) : (linspace a b n).length = n := by
  unfold linspace
  split
  · simp [*]
  · rw [List.length_map, List.length_range]

/-- Writes performed by the crossfade loop never touch a pre-existing array
other than the one `result` is currently bound to. -/
lemma crossfadeLoop_read_preserved (o : ℕ) :
    ∀ (cs : List ℕ) (r : ℕ) (h : Heap) (i : ℕ), i < h.arrays.length → i ≠ r →
      ((crossfadeLoop o cs r h).2).read i = h.read i := by
  intro cs
  induction cs with
  | nil => intro r h i _ _; rfl
  | cons c rest ih =>
      intro r h i hi hir
      rw [crossfadeLoop]
      by_cases hcond : 0 < o ∧ o ≤ (h.read r).length
      · rw [if_pos hcond]
        rcases hbm : broadcastMul ((h.read c).take o) (linspace 0 1 o) with _ | fadedHead
        · simpa using Heap.read_write_ne h r _ hir
        · simp only []
          rcases hia : inplaceAdd ((mulTail (h.read r) o (linspace 1 0 o)).drop
              ((mulTail (h.read r) o (linspace 1 0 o)).length - o)) fadedHead with _ | newTail
          · simpa using Heap.read_write_ne h r _ hir
          · simp only []
            set res1 := mulTail (h.read r) o (linspace 1 0 o) with hres1
            set res2 := res1.take (res1.length - o) ++ newTail with hres2
            set h2 := (h.write r res1).write r res2 with hh2
            have hlen2 : h2.arrays.length = h.arrays.length := by
              rw [hh2, Heap.length_write, Heap.length_write]
            have hi2 : i < h2.arrays.length := by omega
            have hir2 : i ≠ (h2.alloc (res2 ++ (h.read c).drop o)).2 := by
              simp only [Heap.alloc]
              omega
            rw [ih _ _ i (by rw [Heap.length_alloc]; omega) hir2]
            rw [Heap.read_alloc_lt h2 _ hi2]
            rw [hh2, Heap.read_write_ne _ _ _ hir, Heap.read_write_ne _ _ _ hir]
      · rw [if_neg hcond]
        have hstep := ih (h.alloc (h.read r ++ h.read c)).2 ((h.alloc (h.read r ++ h.read c)).1) i
          (by rw [Heap.length_alloc]; omega) (by simp [Heap.alloc]; omega)
        rw [hstep, Heap.read_alloc_lt h _ hi]

lemma length_mulTail (res ramp : List ℚ) (o : ℕ) (hr : o ≤ res.length)
    (hramp : ramp.length = o) : (mulTail res o ramp).length = res.length := by
  unfold mulTail
  rw [List.length_append, List.length_take, List.length_zipWith, List.length_drop, hramp]
  omega

/-- The crossfade loop completes (no numpy exception) whenever the overlap is
positive, the current result is at least overlap long, and every remaining
chunk reference denotes a live array, distinct from the result reference, of
length at least the overlap. -/
lemma crossfadeLoop_isSome (o : ℕ) (ho : 0 < o) :
    ∀ (cs : List ℕ) (r : ℕ) (h : Heap),
      o ≤ (h.read r).length →
      (∀ c ∈ cs, c < h.arrays.length ∧ c ≠ r ∧ o ≤ (h.read c).length) →
      ((crossfadeLoop o cs r h).1).isSome = true := by
  intro cs
  induction cs with
  | nil => intro r h _ _; rfl
  | cons c rest ih =>
      intro r h hr hall
      obtain ⟨hc, hcr, hclen⟩ := hall c (by simp)
      rw [crossfadeLoop, if_pos ⟨ho, hr⟩]
      have htake : ((h.read c).take o).length = (linspace 0 1 o).length := by
        rw [List.length_take, length_linspace]; omega
      have hbm : broadcastMul ((h.read c).take o) (linspace 0 1 o) =
          some (((h.read c).take o).zipWith (· * ·) (linspace 0 1 o)) := by
        unfold broadcastMul; rw [if_pos htake]
      simp only [hbm]
      have hres1len : (mulTail (h.read r) o (linspace 1 0 o)).length = (h.read r).length :=
        length_mulTail _ _ o hr (length_linspace 1 0 o)
      have hdroplen : ((mulTail (h.read r) o (linspace 1 0 o)).drop
          ((mulTail (h.read r) o (linspace 1 0 o)).length - o)).length = o := by
        rw [List.length_drop, hres1len]; omega
      have hfhlen : (((h.read c).take o).zipWith (· * ·) (linspace 0 1 o)).length = o := by
        rw [List.length_zipWith, List.length_take, length_linspace]; omega
      have hia : inplaceAdd ((mulTail (h.read r) o (linspace 1 0 o)).drop
            ((mulTail (h.read r) o (linspace 1 0 o)).length - o))
          (((h.read c).take o).zipWith (· * ·) (linspace 0 1 o)) =
          some (((mulTail (h.read r) o (linspace 1 0 o)).drop
              ((mulTail (h.read r) o (linspace 1 0 o)).length - o)).zipWith (· + ·)
            (((h.read c).take o).zipWith (· * ·) (linspace 0 1 o))) := by
        unfold inplaceAdd; rw [if_pos (by rw [hdroplen, hfhlen])]
      simp only [hia]
      refine ih _ _ ?_ ?_
      · rw [Heap.read_alloc_self]
        rw [List.length_append, List.length_append, List.length_take, List.length_zipWith,
          hdroplen, hfhlen, hres1len]
        omega
      · intro c2 hc2
        obtain ⟨hc2lt, hc2r, hc2len⟩ := hall c2 (by simp [hc2])
        have hlenw : (((h.write r (mulTail (h.read r) o (linspace 1 0 o))).write r
            ((mulTail (h.read r) o (linspace 1 0 o)).take
              ((mulTail (h.read r) o (linspace 1 0 o)).length - o) ++
              ((mulTail (h.read r) o (linspace 1 0 o)).drop
                ((mulTail (h.read r) o (linspace 1 0 o)).length - o)).zipWith (· + ·)
              (((h.read c).take o).zipWith (· * ·) (linspace 0 1 o)))).arrays).length =
            h.arrays.length := by
          rw [Heap.length_write, Heap.length_write]
        refine ⟨?_, ?_, ?_⟩
        · rw [Heap.length_alloc, hlenw]; omega
        · simp only [Heap.alloc]
          rw [hlenw]; omega
        · rw [Heap.read_alloc_lt _ _ (by rw [hlenw]; omega),
            Heap.read_write_ne _ _ _ hc2r, Heap.read_write_ne _ _ _ hc2r]
          exact hc2len

lemma Heap.read_mk_lt (chunks : List (List ℚ)) (c : ℕ) (hc : c < chunks.length) :
    (Heap.mk chunks).read c = chunks[c] := by
  simp [Heap.read, List.getD_eq_getElem?_getD, List.getElem?_eq_getElem hc]

lemma runCrossfade_eq_loop (c0 c1 : List ℚ) (rest : List (List ℚ)) (o : ℕ) :
    runCrossfade (c0 :: c1 :: rest) o =
      crossfadeLoop o (1 :: List.map (fun i => i + 2) (List.range rest.length)) 0
        ⟨c0 :: c1 :: rest⟩ := by
  unfold runCrossfade
  have hr : List.range (c0 :: c1 :: rest).length =
      0 :: 1 :: List.map (fun i => i + 2) (List.range rest.length) := by
    simp only [List.length_cons]
    rw [List.range_succ_eq_map, List.range_succ_eq_map, List.map_cons, List.map_map]
    simp [Function.comp, Nat.succ_eq_add_one]
  rw [hr]
  rfl

/-- The whole stitch succeeds whenever the overlap is positive and every chunk
is at least the overlap long. -/
lemma runCrossfadeValue_isSome (chunks : List (List ℚ)) (o : ℕ) (ho : 0 < o)
    (hne : chunks ≠ []) (hall : ∀ c ∈ chunks, o ≤ c.length) :
    (runCrossfadeValue chunks o).isSome = true := by
  rcases chunks with _ | ⟨c0, _ | ⟨c1, rest⟩⟩
  · exact absurd rfl hne
  · rfl
  · unfold runCrossfadeValue
    rw [Option.isSome_map', runCrossfade_eq_loop]
    apply crossfadeLoop_isSome o ho
    · have h0 : (Heap.mk (c0 :: c1 :: rest)).read 0 = c0 := rfl
      rw [h0]
      exact hall c0 (by simp)
    · intro c hc
      rcases List.mem_cons.mp hc with rfl | hc'
      · refine ⟨by simp, by omega, ?_⟩
        have h1 : (Heap.mk (c0 :: c1 :: rest)).read 1 = c1 := rfl
        rw [h1]
        exact hall c1 (by simp)
      · rcases List.mem_map.mp hc' with ⟨i, hi, rfl⟩
        rw [List.mem_range] at hi
        have hlt : i + 2 < (c0 :: c1 :: rest).length := by
          simp only [List.length_cons]
          omega
        refine ⟨hlt, by simp, ?_⟩
        rw [Heap.read_mk_lt _ _ hlt]
        exact hall _ (List.getElem_mem hlt)

/-! ### Concrete scenario files -/

lemma enhance_audio_idStages_fst (sr ch : ℕ) (a : List ℚ) :
    (enhance_audio idStages sr ch a).1 = a := by
  unfold enhance_audio enhance_steps idStages
  by_cases h1 : sr ≠ 16000 <;> by_cases h2 : ch > 1 <;>
    simp [h1, h2, bind, Option.bind]

/-- A 400-second mono file at 1 Hz (spec Scenario B shape: duration 400 s). -/
def file400s : AudioFile := ⟨List.replicate 400 0, 1, 1, "wav"⟩

/-- A 61-second mono file at 2 Hz (rate ≠ 16000, duration > 60 s). -/
def file61s : AudioFile := ⟨List.replicate 122 0, 2, 1, "wav"⟩

/-- A 12-second mono file at 2 Hz (spec Scenario A shape: duration ≤ 60 s). -/
def file12s : AudioFile := ⟨List.replicate 24 0, 2, 1, "wav"⟩

lemma length_file400s : file400s.samples.length = 400 := by
  rw [file400s, List.length_replicate]

lemma length_file61s : file61s.samples.length = 122 := by
  rw [file61s, List.length_replicate]

lemma length_file12s : file12s.samples.length = 24 := by
  rw [file12s, List.length_replicate]

lemma numChunks_file400s : numChunksOf file400s = 14 := by
  rw [numChunksOf, length_file400s]
  rfl

lemma numChunks_file61s : numChunksOf file61s = 3 := by
  rw [numChunksOf, length_file61s]
  rfl

lemma length_chunkData (f : AudioFile) (i : ℕ) :
    (chunkData f i).length =
      min (if i = 0 then chunkSamplesOf f.sample_rate
           else chunkSamplesOf f.sample_rate + overlapSamplesOf f.sample_rate)
        (f.samples.length -
          (if i = 0 then 0 else i * chunkSamplesOf f.sample_rate - overlapSamplesOf f.sample_rate)) := by
  simp only [chunkData]
  rw [List.length_take, List.length_drop]

lemma chunk_len_file400s (i : ℕ) (hi : i < 14) : 2 ≤ (chunkData file400s i).length := by
  have h := length_chunkData file400s i
  rw [length_file400s] at h
  have hcs : chunkSamplesOf file400s.sample_rate = 30 := rfl
  have hos : overlapSamplesOf file400s.sample_rate = 2 := rfl
  rw [hcs, hos] at h
  rw [h]
  split_ifs <;> omega

lemma chunk_len_file61s (i : ℕ) (hi : i < 3) : 4 ≤ (chunkData file61s i).length := by
  have h := length_chunkData file61s i
  rw [length_file61s] at h
  have hcs : chunkSamplesOf file61s.sample_rate = 60 := rfl
  have hos : overlapSamplesOf file61s.sample_rate = 4 := rfl
  rw [hcs, hos] at h
  rw [h]
  split_ifs <;> omega

lemma chunked_file400s_record :
    (process_large_file idStages file400s).success = true ∧
    (process_large_file idStages file400s).chunks_processed = 14 := by
  have hS : (runCrossfadeValue
      ((List.range (numChunksOf file400s)).map fun i =>
        (enhance_audio idStages file400s.sample_rate 1 (chunkData file400s i)).1)
      (overlapSamplesOf file400s.sample_rate)).isSome = true := by
    apply runCrossfadeValue_isSome
    · decide
    · rw [numChunks_file400s]; simp
    · intro c hc
      rcases List.mem_map.mp hc with ⟨i, hi, rfl⟩
      rw [enhance_audio_idStages_fst]
      rw [List.mem_range, numChunks_file400s] at hi
      exact chunk_len_file400s i hi
  obtain ⟨v, hv⟩ := Option.isSome_iff_exists.mp hS
  simp only [process_large_file]
  rw [hv]
  exact ⟨rfl, numChunks_file400s⟩

lemma chunked_file61s_record :
    (process_large_file idStages file61s).success = true ∧
    (process_large_file idStages file61s).chunks_processed = 3 ∧
    ∃ m, (process_large_file idStages file61s).metadata = some m ∧
      m.sample_rate = 2 ∧ m.channels = 1 := by
  have hS : (runCrossfadeValue
      ((List.range (numChunksOf file61s)).map fun i =>
        (enhance_audio idStages file61s.sample_rate 1 (chunkData file61s i)).1)
      (overlapSamplesOf file61s.sample_rate)).isSome = true := by
    apply runCrossfadeValue_isSome
    · decide
    · rw [numChunks_file61s]; simp
    · intro c hc
      rcases List.mem_map.mp hc with ⟨i, hi, rfl⟩
      rw [enhance_audio_idStages_fst]
      rw [List.mem_range, numChunks_file61s] at hi
      exact chunk_len_file61s i hi
  obtain ⟨v, hv⟩ := Option.isSome_iff_exists.mp hS
  simp only [process_large_file]
  rw [hv]
  exact ⟨rfl, numChunks_file61s, _, rfl, rfl, rfl⟩

lemma duration_file400s : (analyze_audio_file file400s).duration_seconds = 400 := by
  simp only [analyze_audio_file]
  rw [length_file400s]
  norm_num [file400s]

lemma duration_file61s : (analyze_audio_file file61s).duration_seconds = 61 := by
  simp only [analyze_audio_file]
  rw [length_file61s]
  norm_num [file61s]

lemma duration_file12s : (analyze_audio_file file12s).duration_seconds = 12 := by
  simp only [analyze_audio_file]
  rw [length_file12s]
  norm_num [file12s]

lemma route_file400s :
    process_audio_sync idStages file400s ⟨true, true⟩ = process_large_file idStages file400s := by
  simp only [process_audio_sync]
  rw [if_pos ⟨trivial, by rw [duration_file400s]; norm_num⟩]

lemma route_file61s :
    process_audio_sync idStages file61s ⟨true, true⟩ = process_large_file idStages file61s := by
  simp only [process_audio_sync]
  rw [if_pos ⟨trivial, by rw [duration_file61s]; norm_num⟩]

lemma route_file12s :
    process_audio_sync idStages file12s ⟨true, true⟩ = enhance_and_save idStages file12s := by
  simp only [process_audio_sync]
  rw [if_neg (by rintro ⟨-, h⟩; rw [duration_file12s] at h; norm_num at h), if_pos trivial]

/-- Stage oracles for the C2 counterexample: volume normalization halves every
sample, resampling raises, the other transforms succeed unchanged. -/
def cexStages : Stages :=
  { normalize := fun a => some (a.map fun x => x * (1 / 2)), denoise := fun a => some a,
    resample := fun _ => none, toMono := fun a => some a, highpass := fun a => some a }

/-- Stage oracles whose resampling raises and whose other transforms are the
identity. -/
def failStages : Stages :=
  { normalize := fun a => some a, denoise := fun a => some a,
    resample := fun _ => none, toMono := fun a => some a, highpass := fun a => some a }

/-- Claim C2 counterexample: with a volume-normalization stage that halves the
buffer and a resampling stage that raises (rate 8000 ≠ 16000), the claim says
the pipeline keeps the pre-stage buffer [1] and continues; the code instead
falls back to the outer handler and returns the ORIGINAL buffer [2] with an
empty enhancements map, discarding the normalization that had succeeded. -/
theorem enhance_stage_failure_not_skipped :
    (enhance_audio cexStages 8000 1 [2]).1 = [2] ∧
    enhance_audio_spec cexStages 8000 1 [2] = [1] ∧
    (enhance_audio cexStages 8000 1 [2]).1 ≠ enhance_audio_spec cexStages 8000 1 [2] := by
  have h1 : (enhance_audio cexStages 8000 1 [2]).1 = [2] := by
    simp [enhance_audio, enhance_steps, cexStages, bind, Option.bind]
  have h2 : enhance_audio_spec cexStages 8000 1 [2] = [1] := by
    norm_num [enhance_audio_spec, cexStages]
  refine ⟨h1, h2, ?_⟩
  rw [h1, h2]
  norm_num

/-- Claim C2 amended: only the noise-reduction and high-pass stages are
independently fallible (a failure there is skipped, keeping the pre-stage
buffer); a failure in volume normalization, resampling or mono conversion
aborts the whole enhancement, which then returns the original input buffer
with an empty enhancements map; in either case the call itself returns
normally (the outer handler swallows every exception). -/
theorem enhance_catch_structure :
    ∀ (st : Stages) (sr ch : ℕ) (audio : List ℚ),
      (enhance_audio { st with denoise := fun _ => none } sr ch audio =
        enhance_audio { st with denoise := fun a => some a } sr ch audio) ∧
      (enhance_audio { st with highpass := fun _ => none } sr ch audio =
        enhance_audio { st with highpass := fun a => some a } sr ch audio) ∧
      (enhance_steps st sr ch audio = none → enhance_audio st sr ch audio = (audio, [])) ∧
      (∀ r, enhance_steps st sr ch audio = some r → enhance_audio st sr ch audio = r) := by
  intro st sr ch audio
  refine ⟨?_, ?_, fun h => ?_, fun r h => ?_⟩
  · simp [enhance_audio, enhance_steps]
  · simp [enhance_audio, enhance_steps]
  · simp [enhance_audio, h]
  · simp [enhance_audio, h]

/-- Witness for the C2 amended theorem: a resampling failure with identity
stages at rate 8000 returns the original buffer and an empty map. -/
theorem enhance_catch_structure_witness :
    enhance_audio failStages 8000 1 [3] = ([3], []) :=
  (enhance_catch_structure failStages 8000 1 [3]).2.2.1
    (by simp [enhance_steps, failStages])

/-- Claim C3 exhibit: on the chunked path the successful result's metadata
reports the ORIGINAL sample rate (here 2 Hz ≠ 16000) even though each chunk
was put through the enhancer, while the direct enhancer path does report
16000 Hz / 1 channel; so the configured-target-rate guarantee fails for the
chunked processor. -/
theorem chunked_path_keeps_original_sample_rate :
    ((process_audio_sync idStages file61s ⟨true, true⟩).success = true ∧
     (∃ m, (process_audio_sync idStages file61s ⟨true, true⟩).metadata = some m ∧
        m.sample_rate = 2 ∧ m.channels = 1) ∧ (2 : ℕ) ≠ 16000) ∧
    ((process_audio_sync idStages file12s ⟨true, true⟩).success = true ∧
     ∃ m, (process_audio_sync idStages file12s ⟨true, true⟩).metadata = some m ∧
        m.sample_rate = 16000 ∧ m.channels = 1) := by
  constructor
  · rw [route_file61s]
    obtain ⟨hs, _, hm⟩ := chunked_file61s_record
    exact ⟨hs, hm, by norm_num⟩
  · rw [route_file12s]
    exact ⟨rfl, _, rfl, rfl, rfl⟩

/-- Claim C4 counterexample: the pass-through invocation (both options off)
returns success with the processed-file reference PRESENT and equal to the
untouched original file — no transformation occurred, contradicting
"present only when a transformation actually occurred". -/
theorem processed_file_present_without_transformation :
    (process_audio_sync idStages file12s ⟨false, false⟩).success = true ∧
    (process_audio_sync idStages file12s ⟨false, false⟩).processed_file =
      some FileRef.original ∧
    ∀ d s, (process_audio_sync idStages file12s ⟨false, false⟩).processed_file ≠
      some (FileRef.temp d s) := by
  refine ⟨?_, ?_, ?_⟩ <;> simp [process_audio_sync]

/-- Claim C4 amended: a processed-file reference is present only when success
is true (on pass-through it refers to the untouched original); the
chunks_processed count is at least 1 exactly on a successful chunked run and
0 otherwise; failure results carry no processed file and a zero count. -/
theorem result_record_invariants :
    ∀ (st : Stages) (f : AudioFile) (opts : ProcessOptions),
      ((process_audio_sync st f opts).processed_file.isSome = true →
        (process_audio_sync st f opts).success = true) ∧
      ((opts.chunk_large_files = true ∧ 60 < (analyze_audio_file f).duration_seconds) →
        (process_audio_sync st f opts).success = true →
        1 ≤ (process_audio_sync st f opts).chunks_processed) ∧
      (¬(opts.chunk_large_files = true ∧ 60 < (analyze_audio_file f).duration_seconds) →
        (process_audio_sync st f opts).chunks_processed = 0) ∧
      ((process_audio_sync st f opts).success = false →
        (process_audio_sync st f opts).processed_file = none ∧
        (process_audio_sync st f opts).chunks_processed = 0) := by
  intro st f opts
  by_cases hc : opts.chunk_large_files = true ∧ 60 < (analyze_audio_file f).duration_seconds
  · have hroute : process_audio_sync st f opts = process_large_file st f := by
      simp only [process_audio_sync]
      rw [if_pos hc]
    rw [hroute]
    rcases hv : runCrossfadeValue ((List.range (numChunksOf f)).map fun i =>
        (enhance_audio st f.sample_rate 1 (chunkData f i)).1) (overlapSamplesOf f.sample_rate)
      with _ | v
    · have h1 : (process_large_file st f).success = false := by
        simp only [process_large_file]
        rw [hv]
      have h2 : (process_large_file st f).processed_file = none := by
        simp only [process_large_file]
        rw [hv]
      have h3 : (process_large_file st f).chunks_processed = 0 := by
        simp only [process_large_file]
        rw [hv]
      exact ⟨fun hs => by simp [h2] at hs, fun _ hs => by simp [h1] at hs,
        fun _ => h3, fun _ => ⟨h2, h3⟩⟩
    · have h1 : (process_large_file st f).success = true := by
        simp only [process_large_file]
        rw [hv]
      have h2 : (process_large_file st f).chunks_processed = numChunksOf f := by
        simp only [process_large_file]
        rw [hv]
      refine ⟨fun _ => h1, fun _ _ => ?_, fun hnc => absurd hc hnc,
        fun hfal => absurd (h1.symm.trans hfal) (by simp)⟩
      rw [h2, numChunksOf]
      exact le_max_left 1 _
  · have hroute : process_audio_sync st f opts =
        if opts.enhance_quality = true then enhance_and_save st f
        else { success := true, processed_file := some .original,
               metadata := some (analyze_audio_file f), chunks_processed := 0 } := by
      simp only [process_audio_sync]
      rw [if_neg hc]
    rw [hroute]
    by_cases he : opts.enhance_quality = true
    · rw [if_pos he]
      exact ⟨fun _ => rfl, fun h _ => absurd h hc, fun _ => rfl,
        fun h => by simp [enhance_and_save] at h⟩
    · rw [if_neg he]
      exact ⟨fun _ => rfl, fun h _ => absurd h hc, fun _ => rfl, fun h => by simp at h⟩

/-- Witness for the C4 amended theorem: a non-chunked invocation reports a
zero chunk count. -/
theorem result_record_invariants_witness :
    (process_audio_sync idStages file12s ⟨true, false⟩).chunks_processed = 0 :=
  (result_record_invariants idStages file12s ⟨true, false⟩).2.2.1 (by simp)

/-- Claim C5: process routes exactly as specified — chunked processor when
chunk_large_files is set and the analyzed duration exceeds 60 s, else the
direct enhancer when enhance_quality is set, else a pass-through that
succeeds with the processed file equal to the original and no transformation
(zero chunks, metadata as analyzed). -/
theorem routing_rule :
    ∀ (st : Stages) (f : AudioFile) (opts : ProcessOptions),
      (opts.chunk_large_files = true → 60 < (analyze_audio_file f).duration_seconds →
        process_audio_sync st f opts = process_large_file st f) ∧
      (¬(opts.chunk_large_files = true ∧ 60 < (analyze_audio_file f).duration_seconds) →
        opts.enhance_quality = true →
        process_audio_sync st f opts = enhance_and_save st f) ∧
      (¬(opts.chunk_large_files = true ∧ 60 < (analyze_audio_file f).duration_seconds) →
        opts.enhance_quality = false →
        ((process_audio_sync st f opts).success = true ∧
         (process_audio_sync st f opts).processed_file = some FileRef.original ∧
         (process_audio_sync st f opts).metadata = some (analyze_audio_file f) ∧
         (process_audio_sync st f opts).chunks_processed = 0)) := by
  intro st f opts
  refine ⟨fun h1 h2 => ?_, fun hn he => ?_, fun hn he => ?_⟩
  · simp only [process_audio_sync]
    rw [if_pos ⟨h1, h2⟩]
  · simp only [process_audio_sync]
    rw [if_neg hn, if_pos he]
  · have hthis : process_audio_sync st f opts =
        { success := true, processed_file := some .original,
          metadata := some (analyze_audio_file f), chunks_processed := 0 } := by
      simp only [process_audio_sync]
      rw [if_neg hn, if_neg (by simp [he])]
    rw [hthis]
    exact ⟨rfl, rfl, rfl, rfl⟩

/-- Witness for C5 at a concrete pass-through invocation. -/
theorem routing_rule_witness :
    (process_audio_sync idStages file61s ⟨false, false⟩).processed_file =
      some FileRef.original :=
  ((routing_rule idStages file61s ⟨false, false⟩).2.2 (by simp) rfl).2.1

/-- Claim C7: on the chunked path a successful result reports exactly
max(1, ceil(total_samples / chunk_samples)) chunks, and the 400-second
Scenario B file yields success with 14 = ceil(400/30) chunks. -/
theorem chunk_count :
    (∀ (st : Stages) (f : AudioFile),
        (process_large_file st f).success = true →
        (process_large_file st f).chunks_processed =
          max 1 (ceilDiv f.samples.length (chunkSamplesOf f.sample_rate))) ∧
    (process_audio_sync idStages file400s ⟨true, true⟩).success = true ∧
    (process_audio_sync idStages file400s ⟨true, true⟩).chunks_processed = 14 ∧
    max 1 (ceilDiv file400s.samples.length (chunkSamplesOf file400s.sample_rate)) = 14 := by
  refine ⟨?_, ?_, ?_, ?_⟩
  · intro st f hs
    rcases hv : runCrossfadeValue ((List.range (numChunksOf f)).map fun i =>
        (enhance_audio st f.sample_rate 1 (chunkData f i)).1) (overlapSamplesOf f.sample_rate)
      with _ | v
    · have h1 : (process_large_file st f).success = false := by
        simp only [process_large_file]
        rw [hv]
      simp [h1] at hs
    · have h2 : (process_large_file st f).chunks_processed = numChunksOf f := by
        simp only [process_large_file]
        rw [hv]
      rw [h2, numChunksOf]
  · rw [route_file400s]
    exact chunked_file400s_record.1
  · rw [route_file400s]
    exact chunked_file400s_record.2
  · exact numChunks_file400s

/-- Witness for C7 applying the general count formula to the Scenario B file. -/
theorem chunk_count_witness :
    (process_large_file idStages file400s).chunks_processed =
      max 1 (ceilDiv file400s.samples.length (chunkSamplesOf file400s.sample_rate)) :=
  chunk_count.1 idStages file400s chunked_file400s_record.1

/-- Claim C10 amended: with two or more chunks, positive overlap, and the
first two chunks at least overlap long, the call writes the crossfaded
overlap values in place into the caller's first array (reference 0 of the
heap holding the chunks) — every later write goes to freshly allocated
arrays — and with a single chunk the very same reference is returned with the
heap untouched (no copy). -/
theorem crossfade_mutates_first_chunk :
    ∀ (c0 c1 : List ℚ) (rest : List (List ℚ)) (o : ℕ),
      0 < o → o ≤ c0.length → o ≤ c1.length →
      ((((runCrossfade (c0 :: c1 :: rest) o).2).read 0 = crossfadeFirst c0 c1 o) ∧
       (∀ (h : Heap) (r o2 : ℕ), concatenate_with_crossfade h [r] o2 = (some r, h))) := by
  intro c0 c1 rest o ho h0 h1
  refine ⟨?_, fun h r o2 => rfl⟩
  rw [runCrossfade_eq_loop, crossfadeLoop]
  simp only [show (Heap.mk (c0 :: c1 :: rest)).read 0 = c0 from rfl,
    show (Heap.mk (c0 :: c1 :: rest)).read 1 = c1 from rfl]
  rw [if_pos ⟨ho, h0⟩]
  have hbm : broadcastMul (c1.take o) (linspace 0 1 o) =
      some ((c1.take o).zipWith (· * ·) (linspace 0 1 o)) := by
    unfold broadcastMul
    rw [if_pos (by rw [List.length_take, length_linspace]; omega)]
  simp only [hbm]
  have hres1len : (mulTail c0 o (linspace 1 0 o)).length = c0.length :=
    length_mulTail _ _ o h0 (length_linspace 1 0 o)
  have hdroplen : ((mulTail c0 o (linspace 1 0 o)).drop
      ((mulTail c0 o (linspace 1 0 o)).length - o)).length = o := by
    rw [List.length_drop, hres1len]
    omega
  have hfhlen : ((c1.take o).zipWith (· * ·) (linspace 0 1 o)).length = o := by
    rw [List.length_zipWith, List.length_take, length_linspace]
    omega
  have hia : inplaceAdd ((mulTail c0 o (linspace 1 0 o)).drop
        ((mulTail c0 o (linspace 1 0 o)).length - o))
      ((c1.take o).zipWith (· * ·) (linspace 0 1 o)) =
      some (((mulTail c0 o (linspace 1 0 o)).drop
          ((mulTail c0 o (linspace 1 0 o)).length - o)).zipWith (· + ·)
        ((c1.take o).zipWith (· * ·) (linspace 0 1 o))) := by
    unfold inplaceAdd
    rw [if_pos (by rw [hdroplen, hfhlen])]
  simp only [hia]
  rw [crossfadeLoop_read_preserved]
  · rw [Heap.read_alloc_lt]
    · rw [Heap.read_write_self]
      · have htk : ((mulTail c0 o (linspace 1 0 o)).take
            ((mulTail c0 o (linspace 1 0 o)).length - o)) = c0.take (c0.length - o) := by
          rw [hres1len]
          unfold mulTail
          exact List.take_left' (by rw [List.length_take]; omega)
        have hdp : ((mulTail c0 o (linspace 1 0 o)).drop
            ((mulTail c0 o (linspace 1 0 o)).length - o)) =
            (c0.drop (c0.length - o)).zipWith (· * ·) (linspace 1 0 o) := by
          rw [hres1len]
          unfold mulTail
          exact List.drop_left' (by rw [List.length_take]; omega)
        rw [htk, hdp, crossfadeFirst]
      · rw [Heap.length_write]
        simp
    · rw [Heap.length_write, Heap.length_write]
      simp
  · rw [Heap.length_alloc, Heap.length_write, Heap.length_write]
    simp
  · simp only [Heap.alloc, Heap.length_write]
    simp [Heap.write]

/-- Witness for the C10 amended theorem at two concrete chunks. -/
theorem crossfade_mutates_first_chunk_witness :
    ((runCrossfade [[1, 2, 3, 4], [5, 6, 7, 8]] 2).2).read 0 =
      crossfadeFirst [1, 2, 3, 4] [5, 6, 7, 8] 2 :=
  (crossfade_mutates_first_chunk [1, 2, 3, 4] [5, 6, 7, 8] [] 2
    (by norm_num) (by norm_num) (by norm_num)).1

/-- Claim C10 counterexample: with first chunk [1,1,1], second chunk [4,4]
and overlap 3 (first chunk long enough, second chunk shorter than the
overlap), the call raises a numpy broadcast error after the fade-out
multiplication: no concatenated array is returned, and the first chunk's
buffer now holds [1, 1/2, 0] — NOT the crossfaded overlap values the claim
says are written. -/
theorem crossfade_short_second_chunk_raises :
    (runCrossfade [[1, 1, 1], [4, 4]] 3).1 = none ∧
    ((runCrossfade [[1, 1, 1], [4, 4]] 3).2).read 0 ≠ crossfadeFirst [1, 1, 1] [4, 4] 3 := by
  have hr3 : List.range 3 = [0, 1, 2] := rfl
  have hl1 : linspace 1 0 3 = [1, 1/2, 0] := by
    unfold linspace
    rw [if_neg (by norm_num), hr3]
    norm_num
  have hl2 : linspace 0 1 3 = [0, 1/2, 1] := by
    unfold linspace
    rw [if_neg (by norm_num), hr3]
    norm_num
  have hloop : crossfadeLoop 3 [1] 0 (Heap.mk [[1, 1, 1], [4, 4]]) =
      (none, Heap.mk [[1, 1/2, 0], [4, 4]]) := by
    rw [crossfadeLoop]
    simp only [show (Heap.mk [[1, 1, 1], [4, 4]]).read 0 = [1, 1, 1] from rfl,
      show (Heap.mk [[1, 1, 1], [4, 4]]).read 1 = [4, 4] from rfl]
    rw [if_pos (by norm_num)]
    have hbm : broadcastMul (([4, 4] : List ℚ).take 3) (linspace 0 1 3) = none := by
      simp [broadcastMul, hl2]
    simp only [hbm]
    rw [hl1]
    norm_num [mulTail, Heap.write]
  have hrun : runCrossfade [[1, 1, 1], [4, 4]] 3 = (none, Heap.mk [[1, 1/2, 0], [4, 4]]) := by
    rw [runCrossfade_eq_loop]
    simpa using hloop
  constructor
  · rw [hrun]
  · rw [hrun]
    have hread : (Heap.mk [[1, (1 : ℚ)/2, 0], [4, 4]]).read 0 = [1, 1/2, 0] := rfl
    have hcf : crossfadeFirst [1, 1, 1] [4, 4] 3 = [1, 5/2] := by
      rw [crossfadeFirst, hl1, hl2]
      norm_num
    rw [hread, hcf]
    norm_num

end AudioProc
